import Mathlib

/-!
Verification development for the Changeset Log Cache (tuid/clogger.py).

The csetLog table is modelled as a list of rows.  SQL NULL in the
timestamp column is modelled by Option Int (none = NULL); every value
written by the program itself is an integer, so rows carry some t.
All definitions are shallow embeddings of the corresponding Python
functions; line references point into src/tuid/clogger.py.
-/

/-- A row of the csetLog table: (revnum, revision, timestamp).
revnum is an INTEGER PRIMARY KEY, revision a CHAR(12), timestamp an
INTEGER column that may be NULL (modelled as Option Int). -/
structure CRow where
  revnum : Int
  revision : String
  timestamp : Option Int
deriving DecidableEq, Repr

/-- Insert a row into a list already ascending by revnum, after every
row of strictly smaller revnum and before ties and larger revnums. -/
def insertByRevnum (r : CRow) : List CRow → List CRow
  | [] => [r]
  | x :: xs => if x.revnum < r.revnum then x :: insertByRevnum r xs else r :: x :: xs

/-- Read the whole table ordered by revnum ascending, as every SQL read
in the source does via the INTEGER PRIMARY KEY order or via the
sorted(...) call on line 438.  Both are stable ascending sorts, and so
is this insertion sort (kernel-evaluable, unlike List.mergeSort). -/
def sortByRevnum : List CRow → List CRow
  | [] => []
  | x :: xs => insertByRevnum x (sortByRevnum xs)

theorem insertByRevnum_perm (r : CRow) (l : List CRow) :
    (insertByRevnum r l).Perm (r :: l) := by
  induction l with
  | nil => exact List.Perm.refl _
  | cons x xs ih =>
    rw [insertByRevnum]
    by_cases h : x.revnum < r.revnum
    · rw [if_pos h]
      exact (ih.cons x).trans (List.Perm.swap r x xs)
    · rw [if_neg h]

theorem sortByRevnum_perm (l : List CRow) : (sortByRevnum l).Perm l := by
  induction l with
  | nil => exact List.Perm.refl _
  | cons x xs ih =>
    rw [sortByRevnum]
    exact (insertByRevnum_perm x (sortByRevnum xs)).trans (ih.cons x)

theorem insertByRevnum_pairwise (r : CRow) (l : List CRow)
    (hl : l.Pairwise (fun a b => a.revnum ≤ b.revnum)) :
    (insertByRevnum r l).Pairwise (fun a b => a.revnum ≤ b.revnum) := by
  induction l with
  | nil => simp [insertByRevnum]
  | cons x xs ih =>
    rw [insertByRevnum]
    rcases List.pairwise_cons.mp hl with ⟨hx, hxs⟩
    by_cases h : x.revnum < r.revnum
    · rw [if_pos h]
      refine List.pairwise_cons.mpr ⟨?_, ih hxs⟩
      intro b hb
      rcases List.mem_cons.mp ((insertByRevnum_perm r xs).mem_iff.mp hb) with hb1 | hb1
      · subst hb1; omega
      · exact hx b hb1
    · rw [if_neg h]
      refine List.pairwise_cons.mpr ⟨?_, hl⟩
      intro b hb
      rcases List.mem_cons.mp hb with hb1 | hb1
      · subst hb1; omega
      · have := hx b hb1
        omega

theorem sortByRevnum_sorted (table : List CRow) :
    (sortByRevnum table).Pairwise (fun a b => a.revnum ≤ b.revnum) := by
  induction table with
  | nil => simp [sortByRevnum]
  | cons x xs ih =>
    rw [sortByRevnum]
    exact insertByRevnum_pairwise x (sortByRevnum xs) ih

/-- Embedding of recompute_table_revnums (clogger.py lines 156-181):
copy (revision, timestamp) from csetLog into a fresh table ORDER BY
revnum ASC; the INTEGER PRIMARY KEY of the fresh table auto-increments
from 1, so row i (0-based) of the copy receives revnum i+1. -/
def recompute_table_revnums (table : List CRow) : List CRow :=
  (sortByRevnum table).enum.map
    (fun p => ⟨(p.1 : Int) + 1, p.2.revision, p.2.timestamp⟩)

theorem recompute_revnums_eq_range (table : List CRow) :
    (recompute_table_revnums table).map (fun r => r.revnum)
      = (List.range table.length).map (fun n : Nat => (n : Int) + 1) := by
  unfold recompute_table_revnums
  rw [List.map_map]
  have h1 : ((fun r => r.revnum) ∘
        (fun p : Nat × CRow => (⟨(p.1 : Int) + 1, p.2.revision, p.2.timestamp⟩ : CRow)))
      = (fun i : Int => i + 1) ∘ (fun n : Nat => (n : Int)) ∘ Prod.fst := rfl
  rw [h1]
  rw [show ((fun i : Int => i + 1) ∘ (fun n : Nat => (n : Int)) ∘ (Prod.fst : Nat × CRow → Nat))
        = (((fun i : Int => i + 1) ∘ (fun n : Nat => (n : Int))) ∘ (Prod.fst : Nat × CRow → Nat))
      from rfl]
  rw [← List.map_map]
  rw [List.enum_map_fst, ← List.map_map]
  have h2 : (sortByRevnum table).length = table.length :=
    (sortByRevnum_perm table).length_eq
  rw [h2]
  simp [List.map_map, Function.comp]

theorem recompute_pairs_eq_sorted (table : List CRow) :
    (recompute_table_revnums table).map (fun r => (r.revision, r.timestamp))
      = (sortByRevnum table).map (fun r => (r.revision, r.timestamp)) := by
  unfold recompute_table_revnums
  rw [List.map_map]
  have h1 : ((fun r => (r.revision, r.timestamp)) ∘
        (fun p : Nat × CRow => (⟨(p.1 : Int) + 1, p.2.revision, p.2.timestamp⟩ : CRow)))
      = (fun r : CRow => (r.revision, r.timestamp)) ∘ Prod.snd := rfl
  rw [h1, ← List.map_map, List.enum_map_snd]

/-- C1: recompute_table_revnums rewrites csetLog so that, for a table
with pairwise-distinct revnums, the new revnums are exactly 1..N with
no gaps, assigned in ascending order of the previous revnums, and the
sequence of (revision, timestamp) pairs taken in revnum order is
unchanged (the output in its own revnum order equals the input sorted
by its old revnums). -/
theorem c1_compact_renumbers (table : List CRow)
    (h : (table.map (fun r => r.revnum)).Nodup) :
    (recompute_table_revnums table).map (fun r => r.revnum)
        = (List.range table.length).map (fun n : Nat => (n : Int) + 1)
    ∧ (recompute_table_revnums table).map (fun r => (r.revision, r.timestamp))
        = (sortByRevnum table).map (fun r => (r.revision, r.timestamp))
    ∧ (sortByRevnum table).Pairwise (fun a b => a.revnum ≤ b.revnum)
    ∧ (sortByRevnum table).Perm table :=
  ⟨recompute_revnums_eq_range table, recompute_pairs_eq_sorted table,
   sortByRevnum_sorted table, sortByRevnum_perm table⟩

/-- Witness for C1 at a concrete three-row table with distinct revnums. -/
theorem c1_compact_renumbers_witness :
    (([⟨5, "eeeeeeeeeeee", some (-1)⟩, ⟨2, "bbbbbbbbbbbb", some 7⟩,
       ⟨9, "iiiiiiiiiiii", none⟩] : List CRow).map (fun r => r.revnum)).Nodup
    ∧ ((recompute_table_revnums
        [⟨5, "eeeeeeeeeeee", some (-1)⟩, ⟨2, "bbbbbbbbbbbb", some 7⟩,
         ⟨9, "iiiiiiiiiiii", none⟩]).map (fun r => r.revnum)
        = (List.range 3).map (fun n : Nat => (n : Int) + 1)
      ∧ (recompute_table_revnums
          [⟨5, "eeeeeeeeeeee", some (-1)⟩, ⟨2, "bbbbbbbbbbbb", some 7⟩,
           ⟨9, "iiiiiiiiiiii", none⟩]).map (fun r => (r.revision, r.timestamp))
        = (sortByRevnum
            [⟨5, "eeeeeeeeeeee", some (-1)⟩, ⟨2, "bbbbbbbbbbbb", some 7⟩,
             ⟨9, "iiiiiiiiiiii", none⟩]).map (fun r => (r.revision, r.timestamp))
      ∧ (sortByRevnum
          [⟨5, "eeeeeeeeeeee", some (-1)⟩, ⟨2, "bbbbbbbbbbbb", some 7⟩,
           ⟨9, "iiiiiiiiiiii", none⟩]).Pairwise (fun a b => a.revnum ≤ b.revnum)
      ∧ (sortByRevnum
          [⟨5, "eeeeeeeeeeee", some (-1)⟩, ⟨2, "bbbbbbbbbbbb", some 7⟩,
           ⟨9, "iiiiiiiiiiii", none⟩]).Perm
          [⟨5, "eeeeeeeeeeee", some (-1)⟩, ⟨2, "bbbbbbbbbbbb", some 7⟩,
           ⟨9, "iiiiiiiiiiii", none⟩]) :=
  ⟨by decide,
   c1_compact_renumbers
    [⟨5, "eeeeeeeeeeee", some (-1)⟩, ⟨2, "bbbbbbbbbbbb", some 7⟩,
     ⟨9, "iiiiiiiiiiii", none⟩] (by decide)⟩

/-- Constant MINIMUM_PERMANENT_CSETS from clogger.py line 29. -/
def MINIMUM_PERMANENT_CSETS : Nat := 1000

/-- Constant MAXIMUM_NONPERMANENT_CSETS from clogger.py line 30. -/
def MAXIMUM_NONPERMANENT_CSETS : Nat := 20000

/-- Python list slicing lst[:k]: for nonnegative k take the first k
elements; for negative k drop the last (-k) elements (take len+k,
saturating at zero).  Needed to model all_data[:len(all_data) -
MAXIMUM_NONPERMANENT_CSETS] on line 461 faithfully when the table is
smaller than the cap. -/
def pySliceUpTo (l : List CRow) (k : Int) : List CRow :=
  if 0 ≤ k then l.take k.toNat else l.take (l.length - (-k).toNat)

/-- Embedding of the walk over all_data[::-1] in csetLog_maintenance
(clogger.py lines 444-457).  The input list is newest-first and count
is the 0-based position in that order.  For the first minPerm rows a
non-sentinel timestamp is restored to -1; for later rows the code
tests type(timestamp) != int, which holds only for SQL NULL (none),
never for the sentinel -1.  Returns (new_data, modified). -/
def stampWalkAux (minPerm : Nat) (now : Int) : Nat → List CRow → List CRow × Bool
  | _, [] => ([], false)
  | count, r :: rest =>
    let tail := stampWalkAux minPerm now (count + 1) rest
    if count < minPerm then
      if r.timestamp ≠ some (-1) then
        (⟨r.revnum, r.revision, some (-1)⟩ :: tail.1, true)
      else
        (r :: tail.1, tail.2)
    else if r.timestamp = none then
      (⟨r.revnum, r.revision, some now⟩ :: tail.1, true)
    else
      (r :: tail.1, tail.2)

/-- Single INSERT OR REPLACE of one row keyed on the revnum primary
key: replace the row with the same revnum if present, else append. -/
def upsertRow (table : List CRow) (row : CRow) : List CRow :=
  if table.any (fun r => decide (r.revnum = row.revnum)) then
    table.map (fun r => if r.revnum = row.revnum then row else r)
  else
    table ++ [row]

/-- Bulk INSERT OR REPLACE (clogger.py lines 498-505). -/
def upsertRows (table : List CRow) (rows : List CRow) : List CRow :=
  rows.foldl upsertRow table

/-- State touched by one maintenance cycle: the csetLog table and the
in-memory deletions_todo queue of boundary revisions. -/
structure MaintSt where
  csetLog : List CRow
  deletions_todo : List String
deriving DecidableEq, Repr

/-- Embedding of one body iteration of csetLog_maintenance (clogger.py
lines 435-510) with the two size constants as parameters: read all
rows sorted by revnum; walk them newest-first restoring/stamping
timestamps into new_data; compute deleted_data =
all_data[:len - maxNonPerm] (Python slice semantics); if overflow was
detected replace new_data2 by the unmodified snapshot minus
deleted_data; write new_data2 back (INSERT OR REPLACE) only when
modified; finally append the revision of the last deleted row as the
single deletion boundary. -/
def csetLog_maintenance_cycle (minPerm maxNonPerm : Nat) (now : Int) (st : MaintSt) : MaintSt :=
  let all_data := sortByRevnum st.csetLog
  let walk := stampWalkAux minPerm now 0 all_data.reverse
  let new_data := walk.1
  let modified := walk.2
  let deleted_data := pySliceUpTo all_data ((all_data.length : Int) - (maxNonPerm : Int))
  let new_data2 := if deleted_data.isEmpty then new_data
    else all_data.filter (fun r => decide (r ∉ deleted_data))
  let newLog := if modified then upsertRows st.csetLog new_data2 else st.csetLog
  let todo := match deleted_data.getLast? with
    | none => st.deletions_todo
    | some lastRow => st.deletions_todo ++ [lastRow.revision]
  ⟨newLog, todo⟩

/-- C2: the maintenance ageing step never fires on the sentinel.  The
code tests type(timestamp) != int (line 453), and the sentinel -1 is
an int, so a row that just aged out of the permanent window keeps
timestamp -1 instead of receiving the current wall time: with
minPerm = 1 and a two-row table whose timestamps are both -1, the
cycle leaves the state completely unchanged and in particular the
older row keeps the sentinel instead of now = 555. -/
theorem c2_ageing_branch_never_fires :
    csetLog_maintenance_cycle 1 20000 555
      ⟨[⟨1, "aaaaaaaaaaaa", some (-1)⟩, ⟨2, "bbbbbbbbbbbb", some (-1)⟩], []⟩
      = ⟨[⟨1, "aaaaaaaaaaaa", some (-1)⟩, ⟨2, "bbbbbbbbbbbb", some (-1)⟩], []⟩
    ∧ ((csetLog_maintenance_cycle 1 20000 555
        ⟨[⟨1, "aaaaaaaaaaaa", some (-1)⟩, ⟨2, "bbbbbbbbbbbb", some (-1)⟩], []⟩).csetLog.filter
          (fun r => decide (r.timestamp = some 555))) = [] := by
  decide

/-- Six-row table with revnums 1..6 and all timestamps the sentinel
-1, the input of the maintenance-ageing scenario of the spec. -/
def sixRowTable : List CRow :=
  [⟨1, "r1r1r1r1r1r1", some (-1)⟩, ⟨2, "r2r2r2r2r2r2", some (-1)⟩,
   ⟨3, "r3r3r3r3r3r3", some (-1)⟩, ⟨4, "r4r4r4r4r4r4", some (-1)⟩,
   ⟨5, "r5r5r5r5r5r5", some (-1)⟩, ⟨6, "r6r6r6r6r6r6", some (-1)⟩]

/-- C3 counterexample: with minPerm = 2, maxNonPerm = 3, now = 777 on
the six-row all-sentinel table, the claim fails: no row at all
receives the wall-time stamp 777 (the claim says three rows do), and
the deletion queue does not receive the oldest row revision as its
boundary (the claim says exactly the oldest one row is scheduled). -/
theorem c3_claim_counterexample :
    ¬ ((csetLog_maintenance_cycle 2 3 777 ⟨sixRowTable, []⟩).csetLog.any
          (fun r => decide (r.timestamp = some 777)) = true
       ∨ (csetLog_maintenance_cycle 2 3 777 ⟨sixRowTable, []⟩).deletions_todo
          = ["r1r1r1r1r1r1"]) := by
  decide

/-- C3 amended: with minPerm = 2 and maxNonPerm = 3, one maintenance
cycle on the six-row all-sentinel table leaves every timestamp at -1
(the ageing branch fires only for non-integer timestamps) and appends
exactly one boundary to the deletion queue, the revision of the
third-oldest row, which schedules the oldest three rows (all rows of
revnum at most 3) for deletion. -/
theorem c3_maintenance_six_rows :
    csetLog_maintenance_cycle 2 3 777 ⟨sixRowTable, []⟩
      = ⟨sixRowTable, ["r3r3r3r3r3r3"]⟩
    ∧ (sixRowTable.filter (fun r => decide (r.revnum ≤ 3))).map (fun r => r.revision)
      = ["r1r1r1r1r1r1", "r2r2r2r2r2r2", "r3r3r3r3r3r3"] := by
  decide

theorem upsertRow_mem_eq (cl : List CRow) (row : CRow) (hrow : row ∈ cl)
    (hinj : ∀ r ∈ cl, ∀ q ∈ cl, r.revnum = q.revnum → r = q) :
    upsertRow cl row = cl := by
  unfold upsertRow
  have hany : cl.any (fun r => decide (r.revnum = row.revnum)) = true :=
    List.any_eq_true.mpr ⟨row, hrow, by simp⟩
  rw [if_pos hany]
  have : ∀ r ∈ cl, (if r.revnum = row.revnum then row else r) = r := by
    intro r hr
    by_cases hx : r.revnum = row.revnum
    · rw [if_pos hx]
      exact (hinj r hr row hrow hx).symm
    · rw [if_neg hx]
  rw [List.map_congr_left this]
  exact List.map_id' cl

theorem upsertRows_mem_eq (cl : List CRow)
    (hinj : ∀ r ∈ cl, ∀ q ∈ cl, r.revnum = q.revnum → r = q) :
    ∀ rows : List CRow, (∀ x ∈ rows, x ∈ cl) → upsertRows cl rows = cl := by
  intro rows
  induction rows with
  | nil => intro _; rfl
  | cons x rest ih =>
    intro hall
    unfold upsertRows at *
    rw [List.foldl_cons, upsertRow_mem_eq cl x (hall x (List.mem_cons_self x rest)) hinj]
    exact ih (fun y hy => hall y (List.mem_cons_of_mem x hy))

/-- C10: in any maintenance cycle that detects overflow (table size
exceeding maxNonPerm), the rows written back are the unmodified
initial snapshot minus the rows scheduled for deletion, so the table
is completely unchanged by the cycle: every surviving row keeps the
timestamp it had before, and the permanent-window restorations and
ageing stamps computed into new_data are not persisted.  The
hypothesis hinj is the revnum PRIMARY KEY constraint. -/
theorem c10_overflow_discards_stamps (minPerm maxNonPerm : Nat) (now : Int) (st : MaintSt)
    (hinj : ∀ r ∈ st.csetLog, ∀ q ∈ st.csetLog, r.revnum = q.revnum → r = q)
    (hover : maxNonPerm < st.csetLog.length) :
    (csetLog_maintenance_cycle minPerm maxNonPerm now st).csetLog = st.csetLog := by
  unfold csetLog_maintenance_cycle
  simp only
  have hlen : (sortByRevnum st.csetLog).length = st.csetLog.length :=
    (sortByRevnum_perm st.csetLog).length_eq
  have hmem : ∀ x ∈ (sortByRevnum st.csetLog).filter
      (fun r => decide (r ∉ pySliceUpTo (sortByRevnum st.csetLog)
        (((sortByRevnum st.csetLog).length : Int) - (maxNonPerm : Int)))), x ∈ st.csetLog := by
    intro x hx
    exact (sortByRevnum_perm st.csetLog).mem_iff.mp (List.mem_of_mem_filter hx)
  have hpos : (0 : Int) ≤ ((sortByRevnum st.csetLog).length : Int) - (maxNonPerm : Int) := by
    rw [hlen]; omega
  have hne : (pySliceUpTo (sortByRevnum st.csetLog)
      (((sortByRevnum st.csetLog).length : Int) - (maxNonPerm : Int))).isEmpty = false := by
    unfold pySliceUpTo
    rw [if_pos hpos]
    rw [List.isEmpty_eq_false, ← List.length_pos, List.length_take, hlen]
    have h1 : ((st.csetLog.length : Int) - (maxNonPerm : Int)).toNat
        = st.csetLog.length - maxNonPerm := by omega
    rw [h1]
    omega
  rw [hne]
  simp only [Bool.false_eq_true, if_false]
  by_cases hmod : (stampWalkAux minPerm now 0 (sortByRevnum st.csetLog).reverse).2 = true
  · rw [if_pos hmod]
    exact upsertRows_mem_eq st.csetLog hinj _ hmem
  · rw [if_neg hmod]

/-- Witness for C10: a two-row table with maxNonPerm = 1 (overflow
detected) in which the newest-window restoration (the older row has a
non-sentinel timestamp 99 that the walk resets to -1) is computed but
not persisted: the table after the cycle equals the table before. -/
theorem c10_overflow_discards_stamps_witness :
    (∀ r ∈ ([⟨1, "aaaaaaaaaaaa", some 99⟩, ⟨2, "bbbbbbbbbbbb", some (-1)⟩] : List CRow),
      ∀ q ∈ ([⟨1, "aaaaaaaaaaaa", some 99⟩, ⟨2, "bbbbbbbbbbbb", some (-1)⟩] : List CRow),
        r.revnum = q.revnum → r = q)
    ∧ 1 < ([⟨1, "aaaaaaaaaaaa", some 99⟩, ⟨2, "bbbbbbbbbbbb", some (-1)⟩] : List CRow).length
    ∧ (csetLog_maintenance_cycle 2 1 999
        ⟨[⟨1, "aaaaaaaaaaaa", some 99⟩, ⟨2, "bbbbbbbbbbbb", some (-1)⟩], []⟩).csetLog
      = [⟨1, "aaaaaaaaaaaa", some 99⟩, ⟨2, "bbbbbbbbbbbb", some (-1)⟩] :=
  ⟨by decide, by decide,
   c10_overflow_discards_stamps 2 1 999
    ⟨[⟨1, "aaaaaaaaaaaa", some 99⟩, ⟨2, "bbbbbbbbbbbb", some (-1)⟩], []⟩
    (by decide) (by decide)⟩

/-- Embedding of Clogger.revnum (clogger.py lines 103-107): SELECT
max(revnum) FROM csetLog, which is NULL (none) on an empty table. -/
def maxRevnum (table : List CRow) : Option Int :=
  table.foldl (fun acc r =>
    match acc with
    | none => some r.revnum
    | some m => some (max m r.revnum)) none

/-- Embedding of the insert-list construction of add_cset_entries
(clogger.py lines 200-217): reverse the batch when numbering forward,
then give every row timestamp now (if the flag is set) or -1, and a
provisional revnum that is the current max(revnum) when numbering
forward (the same value for every row of the batch, no increment) or
-count when numbering backward. -/
def formatInsertList (maxRev : Option Int) (now : Int) (ordered_rev_list : List String)
    (timestamp number_forward : Bool) : List (Option Int × String × Int) :=
  let lst := if number_forward then ordered_rev_list.reverse else ordered_rev_list
  lst.enum.map (fun p =>
    (if number_forward then maxRev else some (-(p.1 : Int)),
     p.2,
     if timestamp then now else -1))

/-- Plain INSERT INTO csetLog of a list of (revnum, revision,
timestamp) rows (clogger.py lines 227-236) under the INTEGER PRIMARY
KEY discipline of SQLite: a NULL (none) revnum is auto-assigned
max(revnum)+1 (1 on an empty table), while inserting an explicit
revnum equal to an existing one violates the primary key and aborts
the transaction (modelled as none). -/
def insertCsetRows (table : List CRow) (entries : List (Option Int × String × Int)) :
    Option (List CRow) :=
  entries.foldl (fun acc e =>
    match acc with
    | none => none
    | some tbl =>
      let rn : Int := match e.1 with
        | some n => n
        | none => (maxRevnum tbl).getD 0 + 1
      if tbl.any (fun r => decide (r.revnum = rn)) then none
      else some (tbl ++ [⟨rn, e.2.1, some e.2.2⟩])) (some table)

/-- Embedding of add_cset_entries (clogger.py lines 184-239): build
the insert list, filter out entries whose revision already exists in
the table (the check is against the table only, lines 221-225), batch
insert, then recompute_table_revnums. -/
def add_cset_entries (table : List CRow) (now : Int) (ordered_rev_list : List String)
    (timestamp number_forward : Bool) : Option (List CRow) :=
  let insert_list := formatInsertList (maxRevnum table) now ordered_rev_list timestamp number_forward
  let fmt_insert_list := insert_list.filter
    (fun e => table.all (fun r => decide (r.revision ≠ e.2.1)))
  match insertCsetRows table fmt_insert_list with
  | none => none
  | some t2 => some (recompute_table_revnums t2)

/-- The five-row table H,G,F,E,D at revnums 5..1 of the
forward-extension scenario. -/
def fiveRowTable : List CRow :=
  [⟨1, "dddddddddddd", some (-1)⟩, ⟨2, "eeeeeeeeeeee", some (-1)⟩,
   ⟨3, "ffffffffffff", some (-1)⟩, ⟨4, "gggggggggggg", some (-1)⟩,
   ⟨5, "hhhhhhhhhhhh", some (-1)⟩]

/-- C4: the forward numbering branch of add_cset_entries assigns
revnum = self.revnum() (the current max) to every row of the batch
with no increment, so the provisional revnums of the three-row forward
batch K,J,I over the five-row table are all 5: they are not pairwise
distinct, not strictly increasing, and they collide with the existing
primary key 5, so the batch INSERT aborts instead of extending the
table to K,J,I,H,G,F,E,D. -/
theorem c4_forward_numbering_no_increment :
    (formatInsertList (maxRevnum fiveRowTable) 0
        ["kkkkkkkkkkkk", "jjjjjjjjjjjj", "iiiiiiiiiiii"] false true).map (fun e => e.1)
      = [some 5, some 5, some 5]
    ∧ ¬ List.Pairwise (fun a b : Option Int × String × Int => a.1 ≠ b.1)
        (formatInsertList (maxRevnum fiveRowTable) 0
          ["kkkkkkkkkkkk", "jjjjjjjjjjjj", "iiiiiiiiiiii"] false true)
    ∧ add_cset_entries fiveRowTable 0
        ["kkkkkkkkkkkk", "jjjjjjjjjjjj", "iiiiiiiiiiii"] false true = none := by
  decide

/-- C9 counterexample: the insert filter checks only the table, never
the batch itself, so inserting the batch [x, x] (the same absent
revision twice, numbered backward) into an empty table succeeds and
produces two rows with the same revision. -/
theorem c9_intra_batch_duplicate_inserted :
    add_cset_entries [] 0 ["xxxxxxxxxxxx", "xxxxxxxxxxxx"] false false
      = some [⟨1, "xxxxxxxxxxxx", some (-1)⟩, ⟨2, "xxxxxxxxxxxx", some (-1)⟩]
    ∧ ¬ (([⟨1, "xxxxxxxxxxxx", some (-1)⟩, ⟨2, "xxxxxxxxxxxx", some (-1)⟩] : List CRow).map
          (fun r => r.revision)).Nodup := by
  decide

/-- C9 (amended): every row of the batch whose revision already exists
in csetLog is skipped before insertion, so a batch consisting only of
already-present revisions inserts nothing: the call returns the
merely-compacted table, whose (revision, timestamp) rows are a
permutation of the original ones.  (No insert duplicates a revision
already in the table; by c9_intra_batch_duplicate_inserted the filter
does not protect against duplicates inside the batch itself.) -/
theorem c9_insert_filter_idempotent (table : List CRow) (now : Int) (batch : List String)
    (ts fwd : Bool)
    (hall : ∀ rev ∈ batch, ∃ r ∈ table, r.revision = rev) :
    add_cset_entries table now batch ts fwd = some (recompute_table_revnums table)
    ∧ ((recompute_table_revnums table).map (fun r => (r.revision, r.timestamp))).Perm
        (table.map (fun r => (r.revision, r.timestamp))) := by
  constructor
  · have hdef : add_cset_entries table now batch ts fwd
        = match insertCsetRows table
            ((formatInsertList (maxRevnum table) now batch ts fwd).filter
              (fun e => table.all (fun r => decide (r.revision ≠ e.2.1)))) with
          | none => none
          | some t2 => some (recompute_table_revnums t2) := rfl
    rw [hdef]
    have hfil : (formatInsertList (maxRevnum table) now batch ts fwd).filter
        (fun e => table.all (fun r => decide (r.revision ≠ e.2.1))) = [] := by
      apply List.filter_eq_nil_iff.mpr
      intro e he
      unfold formatInsertList at he
      rcases List.mem_map.mp he with ⟨p, hp, hpe⟩
      have hsnd : p.2 ∈ (if fwd then batch.reverse else batch) := by
        have := List.mem_map_of_mem Prod.snd hp
        rwa [List.enum_map_snd] at this
      have hbatch : p.2 ∈ batch := by
        by_cases hf : fwd
        · rw [if_pos hf] at hsnd; exact List.mem_reverse.mp hsnd
        · rwa [if_neg hf] at hsnd
      rcases hall p.2 hbatch with ⟨r, hr, hrev⟩
      have he21 : e.2.1 = p.2 := by rw [← hpe]
      intro hcontra
      have := List.all_eq_true.mp hcontra r hr
      rw [he21] at this
      exact (decide_eq_true_eq.mp this) hrev
    rw [hfil]
    rfl
  · rw [recompute_pairs_eq_sorted table]
    exact (sortByRevnum_perm table).map (fun r => (r.revision, r.timestamp))

/-- Witness for C9 at a one-row table and the batch holding exactly
its revision. -/
theorem c9_insert_filter_idempotent_witness :
    (∀ rev ∈ ["qqqqqqqqqqqq"], ∃ r ∈ ([⟨1, "qqqqqqqqqqqq", some 44⟩] : List CRow),
        r.revision = rev)
    ∧ (add_cset_entries [⟨1, "qqqqqqqqqqqq", some 44⟩] 0 ["qqqqqqqqqqqq"] true true
        = some (recompute_table_revnums [⟨1, "qqqqqqqqqqqq", some 44⟩])
      ∧ ((recompute_table_revnums [⟨1, "qqqqqqqqqqqq", some 44⟩]).map
            (fun r => (r.revision, r.timestamp))).Perm
          (([⟨1, "qqqqqqqqqqqq", some 44⟩] : List CRow).map
            (fun r => (r.revision, r.timestamp)))) :=
  ⟨by decide,
   c9_insert_filter_idempotent [⟨1, "qqqqqqqqqqqq", some 44⟩] 0 ["qqqqqqqqqqqq"] true true
    (by decide)⟩

/-- Embedding of _get_revnum_range (clogger.py lines 145-153): all
(revnum, revision) pairs of rows with low_num <= revnum <= high_num,
where high_num = max and low_num = min of the two arguments. -/
def _get_revnum_range (table : List CRow) (revnum1 revnum2 : Int) : List (Int × String) :=
  let high_num := max revnum1 revnum2
  let low_num := min revnum1 revnum2
  (table.filter (fun r => decide (low_num ≤ r.revnum) && decide (r.revnum ≤ high_num))).map
    (fun r => (r.revnum, r.revision))

/-- Stable ascending insertion into a list of (revnum, revision) pairs
ordered by the numeric first component. -/
def insertByFst (p : Int × String) : List (Int × String) → List (Int × String)
  | [] => [p]
  | x :: xs => if x.1 < p.1 then x :: insertByFst p xs else p :: x :: xs

/-- Stable ascending sort by the numeric first component, modelling
the Python sorted(..., key=lambda x: int(x[0])) call on lines 639-642. -/
def sortByFst : List (Int × String) → List (Int × String)
  | [] => []
  | x :: xs => insertByFst x (sortByFst xs)

/-- Embedding of the final step of get_revnnums_from_range (clogger.py
lines 637-642) once both revisions are resolved to revnums: the range
query result sorted ascending by revnum.  (The resolution path above
it, lines 616-635, goes through update_tip and the backfill queue.) -/
def get_revnnums_from_range (table : List CRow) (revnum1 revnum2 : Int) : List (Int × String) :=
  sortByFst (_get_revnum_range table revnum1 revnum2)

theorem insertByFst_perm (p : Int × String) (l : List (Int × String)) :
    (insertByFst p l).Perm (p :: l) := by
  induction l with
  | nil => exact List.Perm.refl _
  | cons x xs ih =>
    rw [insertByFst]
    by_cases h : x.1 < p.1
    · rw [if_pos h]
      exact (ih.cons x).trans (List.Perm.swap p x xs)
    · rw [if_neg h]

theorem sortByFst_perm (l : List (Int × String)) : (sortByFst l).Perm l := by
  induction l with
  | nil => exact List.Perm.refl _
  | cons x xs ih =>
    rw [sortByFst]
    exact (insertByFst_perm x (sortByFst xs)).trans (ih.cons x)

theorem insertByFst_pairwise (p : Int × String) (l : List (Int × String))
    (hl : l.Pairwise (fun a b => a.1 ≤ b.1)) :
    (insertByFst p l).Pairwise (fun a b => a.1 ≤ b.1) := by
  induction l with
  | nil => simp [insertByFst]
  | cons x xs ih =>
    rw [insertByFst]
    rcases List.pairwise_cons.mp hl with ⟨hx, hxs⟩
    by_cases h : x.1 < p.1
    · rw [if_pos h]
      refine List.pairwise_cons.mpr ⟨?_, ih hxs⟩
      intro b hb
      rcases List.mem_cons.mp ((insertByFst_perm p xs).mem_iff.mp hb) with hb1 | hb1
      · subst hb1; omega
      · exact hx b hb1
    · rw [if_neg h]
      refine List.pairwise_cons.mpr ⟨?_, hl⟩
      intro b hb
      rcases List.mem_cons.mp hb with hb1 | hb1
      · subst hb1; omega
      · have := hx b hb1
        omega

theorem sortByFst_sorted (l : List (Int × String)) :
    (sortByFst l).Pairwise (fun a b => a.1 ≤ b.1) := by
  induction l with
  | nil => simp [sortByFst]
  | cons x xs ih =>
    rw [sortByFst]
    exact insertByFst_pairwise x (sortByFst xs) ih

/-- C6: for every pair of revnums a and b, the range query returns
exactly the (revnum, revision) pairs of rows with min(a,b) <= revnum
<= max(a,b), inclusive at both ends and symmetric in its arguments,
and get_revnnums_from_range returns exactly that range (a permutation
of it) sorted ascending by revnum. -/
theorem c6_range_query_inclusive_symmetric (table : List CRow) (a b : Int) :
    _get_revnum_range table a b = _get_revnum_range table b a
    ∧ (∀ k rev, (k, rev) ∈ _get_revnum_range table a b ↔
        ∃ r ∈ table, r.revnum = k ∧ r.revision = rev ∧ min a b ≤ k ∧ k ≤ max a b)
    ∧ (get_revnnums_from_range table a b).Perm (_get_revnum_range table a b)
    ∧ (get_revnnums_from_range table a b).Pairwise (fun p q => p.1 ≤ q.1) := by
  refine ⟨?_, ?_, sortByFst_perm _, sortByFst_sorted _⟩
  · unfold _get_revnum_range
    rw [max_comm b a, min_comm b a]
  · intro k rev
    unfold _get_revnum_range
    constructor
    · intro hmem
      rcases List.mem_map.mp hmem with ⟨r, hr, heq⟩
      rcases List.mem_filter.mp hr with ⟨hrt, hcond⟩
      simp only [Bool.and_eq_true, decide_eq_true_eq] at hcond
      injection heq with hk hrev
      exact ⟨r, hrt, hk, hrev, hk ▸ hcond.1, hk ▸ hcond.2⟩
    · intro hex
      rcases hex with ⟨r, hrt, hk, hrev, hlo, hhi⟩
      apply List.mem_map.mpr
      refine ⟨r, List.mem_filter.mpr ⟨hrt, ?_⟩, by rw [hk, hrev]⟩
      simp only [Bool.and_eq_true, decide_eq_true_eq]
      exact ⟨hk ▸ hlo, hk ▸ hhi⟩

/-- The two worker-disabling flags consulted by the tip worker loop. -/
structure CloggerFlags where
  disable_tipfilling : Bool
  disable_backfilling : Bool
deriving DecidableEq, Repr

/-- Embedding of the guard of one iteration of fill_forward_continuous
(clogger.py lines 400-415): waiting_a_bit is set from
self.disable_backfilling (line 402); the disable_tipfilling flag
assigned in __init__ (line 58) is never consulted anywhere in the
file, and update_tip() - whose first action is an HTTP fetch of the
changelog and which may mutate the table - is invoked exactly when
waiting_a_bit is false. -/
def fill_forward_iteration_calls_update_tip (flags : CloggerFlags) : Bool :=
  let waiting_a_bit := flags.disable_backfilling
  !waiting_a_bit

/-- C7: the tip worker tests the wrong flag.  With disable_tipfilling
true and disable_backfilling false the iteration still calls
update_tip (fetching and possibly mutating) instead of only sleeping;
conversely with disable_tipfilling false and disable_backfilling true
the tip worker sleeps without work. -/
theorem c7_tip_worker_tests_wrong_flag :
    fill_forward_iteration_calls_update_tip ⟨true, false⟩ = true
    ∧ fill_forward_iteration_calls_update_tip ⟨false, true⟩ = false := by
  decide

/-- A Python value bound as the SQL parameter of WHERE revision=?:
either a text value or a tuple.  _get_one_revnum is called with a
plain string everywhere (lines 319, 542, 617) except in
get_old_cset_revnum (line 606), which passes the 1-tuple (revision,). -/
inductive SqlParam where
  | pstr (s : String)
  | ptup (ss : List String)
deriving DecidableEq, Repr

/-- Comparison of the TEXT column revision with the bound parameter: a
text parameter matches by string equality; binding a tuple is not a
supported scalar (sqlite3 raises an InterfaceError; under any reading
the comparison matches no stored text), modelled as false. -/
def paramMatchesText (column : String) (p : SqlParam) : Bool :=
  match p with
  | .pstr s => column == s
  | .ptup _ => false

/-- Embedding of _get_one_revnum (clogger.py lines 140-142): the
revnum of the first row whose revision equals the bound parameter,
none when there is no match. -/
def _get_one_revnum (table : List CRow) (rev : SqlParam) : Option Int :=
  (table.find? (fun r => paramMatchesText r.revision rev)).map (fun r => r.revnum)

/-- Embedding of the queue append of get_old_cset_revnum (clogger.py
lines 597-600): (revision, True) is appended to csets_todo_backwards. -/
def get_old_cset_revnum_enqueue (queue : List (String × Bool)) (revision : String) :
    List (String × Bool) :=
  queue ++ [(revision, true)]

/-- Embedding of the poll of get_old_cset_revnum (clogger.py line
606): the loop looks the revision up by calling _get_one_revnum with
the 1-tuple (revision,) as the parameter. -/
def get_old_cset_revnum_poll_lookup (table : List CRow) (revision : String) : Option Int :=
  _get_one_revnum table (SqlParam.ptup [revision])

/-- C8: get_old_cset_revnum does append (revision, true) to the
backfill queue, but its poll passes the tuple (revision,) instead of
the revision string to _get_one_revnum, so even on a table that
contains the revision (where the string lookup returns its revnum 1)
the poll lookup returns none and the loop can never observe the
inserted revision. -/
theorem c8_poll_lookup_never_matches :
    get_old_cset_revnum_enqueue [] ("abcdefabcdef") = [("abcdefabcdef", true)]
    ∧ _get_one_revnum [⟨1, "abcdefabcdef", some (-1)⟩] (SqlParam.pstr ("abcdefabcdef"))
      = some 1
    ∧ get_old_cset_revnum_poll_lookup [⟨1, "abcdefabcdef", some (-1)⟩] ("abcdefabcdef")
      = none := by
  decide

/-- State touched by one deleter iteration: the csetLog table plus the
two external collaborator tables, annotations (revision, payload) and
latestFileMod (file, revision). -/
structure DelState where
  csetLog : List CRow
  annotations : List (String × String)
  latestFileMod : List (String × String)
deriving DecidableEq, Repr

/-- The revisions scheduled for removal (clogger.py lines 544-547):
SELECT revision FROM csetLog WHERE revnum <= cut. -/
def csets_to_del (cl : List CRow) (revnum : Int) : List String :=
  (cl.filter (fun r => decide (r.revnum ≤ revnum))).map (fun r => r.revision)

/-- The frontier revisions among them (clogger.py lines 549-554):
SELECT revision FROM latestFileMod WHERE revision IN csets_to_del. -/
def existing_frontiers (lfm : List (String × String)) (dels : List String) : List String :=
  (lfm.filter (fun p => decide (p.2 ∈ dels))).map (fun p => p.2)

/-- Embedding of the processing of one queue boundary first_cset in
csetLog_deleter (clogger.py lines 540-588): look the boundary up
(the code indexes the result with [0], so an absent boundary raises,
modelled none), collect the revisions with revnum <= that revnum,
delete the matching latestFileMod rows (only when some frontier rows
match), the matching annotations rows and the matching csetLog rows,
and recompute the revnums. -/
def csetLog_deleter_step (st : DelState) (first_cset : String) : Option DelState :=
  match _get_one_revnum st.csetLog (SqlParam.pstr first_cset) with
  | none => none
  | some revnum =>
    let dels := csets_to_del st.csetLog revnum
    let fronts := existing_frontiers st.latestFileMod dels
    let lfm2 := if fronts.isEmpty then st.latestFileMod
      else st.latestFileMod.filter (fun p => decide (p.2 ∉ fronts))
    some ⟨recompute_table_revnums (st.csetLog.filter (fun r => decide (r.revision ∉ dels))),
          st.annotations.filter (fun p => decide (p.1 ∉ dels)),
          lfm2⟩

theorem filter_not_mem_csets_to_del (cl : List CRow) (k : Int)
    (hinj : ∀ r ∈ cl, ∀ q ∈ cl, r.revision = q.revision → r = q) :
    cl.filter (fun r => decide (r.revision ∉ csets_to_del cl k))
      = cl.filter (fun r => decide (k < r.revnum)) := by
  apply List.filter_congr
  intro r hr
  rw [decide_eq_decide]
  constructor
  · intro hnot
    by_contra hle
    apply hnot
    unfold csets_to_del
    exact List.mem_map.mpr
      ⟨r, List.mem_filter.mpr ⟨hr, decide_eq_true_eq.mpr (by omega)⟩, rfl⟩
  · intro hlt hmem
    unfold csets_to_del at hmem
    rcases List.mem_map.mp hmem with ⟨q, hq, hqrev⟩
    rcases List.mem_filter.mp hq with ⟨hqcl, hqle⟩
    have hqr : q = r := hinj q hqcl r hr hqrev
    have := decide_eq_true_eq.mp hqle
    rw [hqr] at this
    omega

theorem lfm_delete_eq_filter (lfm : List (String × String)) (dels : List String) :
    (if (existing_frontiers lfm dels).isEmpty then lfm
      else lfm.filter (fun p => decide (p.2 ∉ existing_frontiers lfm dels)))
    = lfm.filter (fun p => decide (p.2 ∉ dels)) := by
  have hiff : ∀ p ∈ lfm, (p.2 ∈ existing_frontiers lfm dels ↔ p.2 ∈ dels) := by
    intro p hp
    constructor
    · intro hmem
      rcases List.mem_map.mp hmem with ⟨q, hq, hqe⟩
      rcases List.mem_filter.mp hq with ⟨hql, hqd⟩
      exact hqe ▸ decide_eq_true_eq.mp hqd
    · intro hd
      exact List.mem_map.mpr ⟨p, List.mem_filter.mpr ⟨hp, decide_eq_true_eq.mpr hd⟩, rfl⟩
  by_cases hemp : (existing_frontiers lfm dels).isEmpty
  · rw [if_pos hemp]
    symm
    apply List.filter_eq_self.mpr
    intro p hp
    apply decide_eq_true_eq.mpr
    intro hd
    have hmem : p.2 ∈ existing_frontiers lfm dels := (hiff p hp).mpr hd
    rw [List.isEmpty_iff] at hemp
    rw [hemp] at hmem
    exact List.not_mem_nil _ hmem
  · rw [if_neg hemp]
    apply List.filter_congr
    intro p hp
    rw [decide_eq_decide]
    exact not_congr (hiff p hp)

/-- C5: when the deleter processes a boundary whose revnum is k over a
table with unique revisions, it removes from csetLog exactly the rows
with revnum <= k (the survivors are exactly the rows with k < revnum,
then compacted), removes from annotations exactly the rows whose
revision is among the removed changesets, removes from latestFileMod
exactly the rows whose revision is among the removed changesets, and
the compacted survivors are renumbered densely 1..M. -/
theorem c5_deleter_cascades (st : DelState) (first_cset : String) (k : Int)
    (hlook : _get_one_revnum st.csetLog (SqlParam.pstr first_cset) = some k)
    (hinj : ∀ r ∈ st.csetLog, ∀ q ∈ st.csetLog, r.revision = q.revision → r = q) :
    csetLog_deleter_step st first_cset = some
      ⟨recompute_table_revnums (st.csetLog.filter (fun r => decide (k < r.revnum))),
       st.annotations.filter (fun p => decide (p.1 ∉ csets_to_del st.csetLog k)),
       st.latestFileMod.filter (fun p => decide (p.2 ∉ csets_to_del st.csetLog k))⟩
    ∧ (recompute_table_revnums (st.csetLog.filter (fun r => decide (k < r.revnum)))).map
        (fun r => r.revnum)
      = (List.range (st.csetLog.filter (fun r => decide (k < r.revnum))).length).map
          (fun n : Nat => (n : Int) + 1) := by
  refine ⟨?_, recompute_revnums_eq_range _⟩
  unfold csetLog_deleter_step
  rw [hlook]
  show some (⟨recompute_table_revnums (st.csetLog.filter
        (fun r => decide (r.revision ∉ csets_to_del st.csetLog k))),
      st.annotations.filter (fun p => decide (p.1 ∉ csets_to_del st.csetLog k)),
      if (existing_frontiers st.latestFileMod (csets_to_del st.csetLog k)).isEmpty
      then st.latestFileMod
      else st.latestFileMod.filter (fun p =>
        decide (p.2 ∉ existing_frontiers st.latestFileMod (csets_to_del st.csetLog k)))⟩ : DelState)
    = _
  rw [filter_not_mem_csets_to_del st.csetLog k hinj]
  rw [lfm_delete_eq_filter st.latestFileMod (csets_to_del st.csetLog k)]

/-- Witness for C5 at the deletion-cascade scenario: boundary X has
revnum 3, annotations holds rows for X (revnum 3), Y (revnum 2) and Z
(revnum 4), latestFileMod references X and Z; after the step only the
revnum-4 row Z survives (renumbered to 1) together with its
annotations and frontier rows. -/
theorem c5_deleter_cascades_witness :
    (_get_one_revnum
        [⟨1, "wwwwwwwwwwww", some 5⟩, ⟨2, "yyyyyyyyyyyy", some 6⟩,
         ⟨3, "xxxxxxxxxxxx", some 7⟩, ⟨4, "zzzzzzzzzzzz", some (-1)⟩]
        (SqlParam.pstr ("xxxxxxxxxxxx")) = some 3
      ∧ (∀ r ∈ ([⟨1, "wwwwwwwwwwww", some 5⟩, ⟨2, "yyyyyyyyyyyy", some 6⟩,
            ⟨3, "xxxxxxxxxxxx", some 7⟩, ⟨4, "zzzzzzzzzzzz", some (-1)⟩] : List CRow),
          ∀ q ∈ ([⟨1, "wwwwwwwwwwww", some 5⟩, ⟨2, "yyyyyyyyyyyy", some 6⟩,
            ⟨3, "xxxxxxxxxxxx", some 7⟩, ⟨4, "zzzzzzzzzzzz", some (-1)⟩] : List CRow),
            r.revision = q.revision → r = q))
    ∧ (csetLog_deleter_step
        ⟨[⟨1, "wwwwwwwwwwww", some 5⟩, ⟨2, "yyyyyyyyyyyy", some 6⟩,
          ⟨3, "xxxxxxxxxxxx", some 7⟩, ⟨4, "zzzzzzzzzzzz", some (-1)⟩],
         [("xxxxxxxxxxxx", "a1"), ("yyyyyyyyyyyy", "a2"), ("zzzzzzzzzzzz", "a3")],
         [("file1", "xxxxxxxxxxxx"), ("file2", "zzzzzzzzzzzz")]⟩
        ("xxxxxxxxxxxx") = some
        ⟨recompute_table_revnums
          (([⟨1, "wwwwwwwwwwww", some 5⟩, ⟨2, "yyyyyyyyyyyy", some 6⟩,
             ⟨3, "xxxxxxxxxxxx", some 7⟩, ⟨4, "zzzzzzzzzzzz", some (-1)⟩] : List CRow).filter
            (fun r => decide (3 < r.revnum))),
         ([("xxxxxxxxxxxx", "a1"), ("yyyyyyyyyyyy", "a2"), ("zzzzzzzzzzzz", "a3")] :
            List (String × String)).filter (fun p => decide (p.1 ∉ csets_to_del
              [⟨1, "wwwwwwwwwwww", some 5⟩, ⟨2, "yyyyyyyyyyyy", some 6⟩,
               ⟨3, "xxxxxxxxxxxx", some 7⟩, ⟨4, "zzzzzzzzzzzz", some (-1)⟩] 3)),
         ([("file1", "xxxxxxxxxxxx"), ("file2", "zzzzzzzzzzzz")] :
            List (String × String)).filter (fun p => decide (p.2 ∉ csets_to_del
              [⟨1, "wwwwwwwwwwww", some 5⟩, ⟨2, "yyyyyyyyyyyy", some 6⟩,
               ⟨3, "xxxxxxxxxxxx", some 7⟩, ⟨4, "zzzzzzzzzzzz", some (-1)⟩] 3))⟩
      ∧ (recompute_table_revnums
          (([⟨1, "wwwwwwwwwwww", some 5⟩, ⟨2, "yyyyyyyyyyyy", some 6⟩,
             ⟨3, "xxxxxxxxxxxx", some 7⟩, ⟨4, "zzzzzzzzzzzz", some (-1)⟩] : List CRow).filter
            (fun r => decide (3 < r.revnum)))).map (fun r => r.revnum)
        = (List.range (([⟨1, "wwwwwwwwwwww", some 5⟩, ⟨2, "yyyyyyyyyyyy", some 6⟩,
             ⟨3, "xxxxxxxxxxxx", some 7⟩, ⟨4, "zzzzzzzzzzzz", some (-1)⟩] : List CRow).filter
            (fun r => decide (3 < r.revnum))).length).map (fun n : Nat => (n : Int) + 1)) :=
  ⟨⟨by decide, by decide⟩,
   c5_deleter_cascades
    ⟨[⟨1, "wwwwwwwwwwww", some 5⟩, ⟨2, "yyyyyyyyyyyy", some 6⟩,
      ⟨3, "xxxxxxxxxxxx", some 7⟩, ⟨4, "zzzzzzzzzzzz", some (-1)⟩],
     [("xxxxxxxxxxxx", "a1"), ("yyyyyyyyyyyy", "a2"), ("zzzzzzzzzzzz", "a3")],
     [("file1", "xxxxxxxxxxxx"), ("file2", "zzzzzzzzzzzz")]⟩
    ("xxxxxxxxxxxx") 3 (by decide) (by decide)⟩
